import Mathlib

/-!
Verification of the comparison-and-difference engine of this repository
(`datatest/validate.py`, together with the difference model of
`datatest/errors.py` and the sequence-alignment comparison of
`datatest/require.py`, both of which are exercised by `tests/`).

The Python values the engine handles are shallowly embedded as `PyVal`;
Python exceptions become the `Except` monad with a `PyErr` kind
(`ValueError` / `TypeError` / `NameError`), and generators are evaluated
eagerly into lists (the engine's own mapping layer materializes them with
`list(...)`, so the fully evaluated contents are what callers observe).
-/

/-- Shallow embedding of the Python values the comparison engine meets:
`none`/`notfound` (the NOTFOUND sentinel of errors.py), booleans, integers,
strings, float NaN (the only float the difference model treats specially),
lists and dicts.  Value equality is structural; the Python corner cases
`1 == True` and `nan != nan` are not modelled (no claim depends on them). -/
inductive PyVal where
  | none : PyVal
  | notfound : PyVal
  | nan : PyVal
  | bool (b : Bool) : PyVal
  | int (n : Int) : PyVal
  | str (s : String) : PyVal
  | list (l : List PyVal) : PyVal
  | dict (l : List (PyVal × PyVal)) : PyVal

mutual

/-- Structural value equality on the embedded Python values (models `==`
for the well-behaved values the claims exercise). -/
def PyVal.beq : PyVal → PyVal → Bool
  | .none, .none => true
  | .notfound, .notfound => true
  | .nan, .nan => true
  | .bool a, .bool b => a == b
  | .int a, .int b => a == b
  | .str a, .str b => a == b
  | .list a, .list b => PyVal.beqL a b
  | .dict a, .dict b => PyVal.beqP a b
  | _, _ => false

/-- Elementwise `PyVal.beq` on lists. -/
def PyVal.beqL : List PyVal → List PyVal → Bool
  | [], [] => true
  | a :: as, b :: bs => PyVal.beq a b && PyVal.beqL as bs
  | _, _ => false

/-- Pairwise `PyVal.beq` on key-value lists. -/
def PyVal.beqP : List (PyVal × PyVal) → List (PyVal × PyVal) → Bool
  | [], [] => true
  | (k₁, v₁) :: as, (k₂, v₂) :: bs =>
      PyVal.beq k₁ k₂ && PyVal.beq v₁ v₂ && PyVal.beqP as bs
  | _, _ => false

end

/-- Python truthiness (`bool(x)`) for the embedded values: `None`, `''`,
`0`, `False`, `[]` and the empty dict are falsy; NaN and the NOTFOUND
sentinel object are truthy. -/
def pyTruthy : PyVal → Bool
  | .none => false
  | .notfound => true
  | .nan => true
  | .bool b => b
  | .int n => n != 0
  | .str s => s != ""
  | .list l => !l.isEmpty
  | .dict l => !l.isEmpty

/-- Modelled from the spec: the black-box helper `_is_nsiterable` of
`datatest/utils/misc.py` (not under src/), "is this iterable-but-not-string":
true for lists and dicts, false for strings and all scalars. -/
def _is_nsiterable : PyVal → Bool
  | .list _ => true
  | .dict _ => true
  | _ => false

/-- `isinstance(x, collections.Mapping)`: true exactly for dicts. -/
def isMapping : PyVal → Bool
  | .dict _ => true
  | _ => false

/-- Python iteration over a container: a list yields its elements, a dict
its keys.  (The comparison engine only iterates values it has checked with
`_is_nsiterable`, or lists it built itself; the scalar fallback is never
reached from the embedded code.) -/
def pyIter : PyVal → List PyVal
  | .list l => l
  | .dict l => l.map Prod.fst
  | v => [v]

set_option maxHeartbeats 1000000 in
theorem PyVal.beq_spec :
    (∀ a b : PyVal, PyVal.beq a b = true ↔ a = b) ∧
    (∀ a b : List (PyVal × PyVal), PyVal.beqP a b = true ↔ a = b) ∧
    (∀ a b : List PyVal, PyVal.beqL a b = true ↔ a = b) := by
  refine PyVal.beq.mutual_induct
    (fun a b => PyVal.beq a b = true ↔ a = b)
    (fun a b => PyVal.beqP a b = true ↔ a = b)
    (fun a b => PyVal.beqL a b = true ↔ a = b)
    ?_ ?_ ?_ ?_ ?_ ?_ ?_ ?_ ?_ ?_ ?_ ?_ ?_ ?_ ?_
  all_goals
    first
      | (intros; simp_all [PyVal.beq, PyVal.beqL, PyVal.beqP]; done)
      | (intro t x h₁ h₂ h₃ h₄ h₅ h₆ h₇ h₈
         cases t <;> cases x <;> simp_all [PyVal.beq])
      | (intro t x h₁ h₂
         cases t <;> cases x <;>
           first
             | (simp_all [PyVal.beq, PyVal.beqL, PyVal.beqP]; done)
             | exact (h₂ _ _ _ _ rfl rfl).elim
             | exact (h₂ _ _ _ _ _ _ rfl rfl).elim)

instance : DecidableEq PyVal := fun a b =>
  decidable_of_iff (PyVal.beq a b = true) (PyVal.beq_spec.1 a b)

/-- The kind and message of a raised Python exception, as the comparison
engine distinguishes them (`ValueError`, `TypeError`, and the `NameError`
the mapping comparison's guard actually raises because its helper is
never imported). -/
inductive PyErr where
  | valueError (msg : String) : PyErr
  | typeError (msg : String) : PyErr
  | nameError (msg : String) : PyErr
  deriving DecidableEq

/-- Modelled from the spec: the four difference variants of
`datatest/errors.py` (not under src/) — `Missing`, `Extra`, `Invalid`
(with the expected side optional, omitted when `show_expected` is false)
and `Deviation` (diff together with the expected baseline). -/
inductive Diff where
  | missing (value : PyVal) : Diff
  | extra (value : PyVal) : Diff
  | invalid (actual : PyVal) (expected : Option PyVal) : Diff
  | deviation (diff : PyVal) (expected : PyVal) : Diff
  deriving DecidableEq

/-- An "empty" value in the sense of the difference model's special
handling: `None`, the empty string, or float NaN
(`test_errors.py::TestDeviation.test_empty_value_handling`). -/
def isEmptyVal : PyVal → Bool
  | .none => true
  | .str s => s == ""
  | .nan => true
  | _ => false

/-- A zero-like value: `0` or `False`
(`test_errors.py::TestDeviation.test_zero_value_handling`, "Zero and False
should be treated the same"; `0.0` is not modelled, no float arithmetic). -/
def isZeroVal : PyVal → Bool
  | .int n => n == 0
  | .bool b => !b
  | _ => false

/-- Modelled from the spec: construction of a `Deviation` difference
(`datatest/errors.py` is not under src/).  The guard follows the spec's
zero-diff rule as pinned down by `test_errors.py::TestDeviation`: a
zero/False diff is rejected unless the expected side is empty
(None/''/NaN), and an empty diff is rejected unless the expected side is
empty or zero-like.  (The spec's §8 example "Deviation(5, 0) raises"
contradicts `test_zero_value_handling`, which asserts `Deviation(+5, x)`
passes for every zero-like `x`; the tests are followed.)  The ValueError
message text is not pinned by the spec or tests. -/
def mkDeviation (value required : PyVal) : Except PyErr Diff :=
  if (isZeroVal value && !isEmptyVal required)
      || (isEmptyVal value && !(isEmptyVal required || isZeroVal required)) then
    .error (.valueError "deviation must be a non-zero difference")
  else
    .ok (.deviation value required)

/-- `isinstance(x, Number) and not _is_nan(x)`: the values the difference
factory treats as numeric (Python bools are numbers; NaN is excluded). -/
def isNumericVal : PyVal → Bool
  | .int _ => true
  | .bool _ => true
  | _ => false

/-- Numeric value of an embedded number (`False - 0 == 0`, `True` is 1). -/
def pyToInt : PyVal → Int
  | .int n => n
  | .bool b => if b then 1 else 0
  | _ => 0

/-- Modelled from the spec: the difference factory `_make_difference`
(imported by validate.py as `_get_error`; `datatest/errors.py` is not
under src/), classifying a pair already known to differ, following spec
§4.1 and `test_errors.py::TestMakeDifference`:
numeric vs numeric gives `Deviation(actual - expected, expected)`;
numeric vs empty/NOTFOUND gives `Deviation(actual, expected-as-is)` with
NOTFOUND recorded as None; empty/NOTFOUND vs numeric gives
`Deviation(None-or-the-falsy-actual, 0)` when expected is zero and
`Deviation(-expected, expected)` otherwise; then NOTFOUND actual gives
`Missing(expected)`, NOTFOUND expected gives `Extra(actual)`, and
everything else `Invalid` (expected omitted when `show_expected` is
false). -/
def _make_difference (actual expected : PyVal) (show_expected : Bool) : Except PyErr Diff :=
  if isNumericVal actual && isNumericVal expected then
    mkDeviation (.int (pyToInt actual - pyToInt expected)) expected
  else if isNumericVal actual && (!pyTruthy expected || expected == .notfound) then
    mkDeviation (.int (pyToInt actual))
      (if expected == .notfound then .none else expected)
  else if isNumericVal expected && (!pyTruthy actual || actual == .notfound) then
    (if pyToInt expected == 0 then
      mkDeviation (if actual == .notfound then .none else actual) expected
    else
      mkDeviation (.int (0 - pyToInt expected)) expected)
  else if actual == .notfound then
    .ok (.missing expected)
  else if expected == .notfound then
    .ok (.extra actual)
  else
    .ok (.invalid actual (if show_expected then some expected else Option.none))

example : mkDeviation (.int 1) (.int 100) = .ok (.deviation (.int 1) (.int 100)) := rfl

example : (mkDeviation (.int 0) (.int 100)).isOk = false := by decide

example : ∀ x ∈ [PyVal.none, PyVal.str "", PyVal.nan],
    (mkDeviation (.int 0) x).isOk ∧ (mkDeviation (.int 5) x).isOk ∧
    (mkDeviation x (.int 0)).isOk ∧ (mkDeviation x (.int 5)).isOk = false := by decide

example : ∀ x ∈ [PyVal.int 0, PyVal.bool false],
    (mkDeviation (.int 5) x).isOk ∧ (mkDeviation (.int 0) x).isOk = false ∧
    (mkDeviation x (.int 0)).isOk = false ∧ (mkDeviation x (.int 5)).isOk = false := by decide

example : _make_difference (.int 5) (.int 6) true = .ok (.deviation (.int (-1)) (.int 6)) := rfl

example : _make_difference (.int 5) .none true = .ok (.deviation (.int 5) .none) := rfl

example : _make_difference (.int 0) .none true = .ok (.deviation (.int 0) .none) := rfl

example : _make_difference .none (.int 6) true = .ok (.deviation (.int (-6)) (.int 6)) := rfl

example : _make_difference .none (.int 0) true = .ok (.deviation .none (.int 0)) := rfl

example : _make_difference (.str "a") (.str "b") true = .ok (.invalid (.str "a") (some (.str "b"))) := rfl

example : _make_difference (.int 5) (.str "b") true = .ok (.invalid (.int 5) (some (.str "b"))) := rfl

example : _make_difference .nan (.int 6) true = .ok (.invalid .nan (some (.int 6))) := rfl

example : _make_difference (.int 5) .nan true = .ok (.invalid (.int 5) (some .nan)) := rfl

example : _make_difference (.str "a") .notfound true = .ok (.extra (.str "a")) := rfl

example : _make_difference .notfound (.str "b") true = .ok (.missing (.str "b")) := rfl

example : _make_difference (.int 5) .notfound true = .ok (.deviation (.int 5) .none) := rfl

example : _make_difference (.int 0) .notfound true = .ok (.deviation (.int 0) .none) := rfl

example : _make_difference .notfound (.int 6) true = .ok (.deviation (.int (-6)) (.int 6)) := rfl

example : _make_difference .notfound (.int 0) true = .ok (.deviation .none (.int 0)) := rfl

example : _make_difference (.str "a") (.int 6) false = .ok (.invalid (.str "a") Option.none) := rfl

example : _make_difference .notfound (.int 6) false = .ok (.deviation (.int (-6)) (.int 6)) := rfl

example : _make_difference (.str "a") (.str "a") true = .ok (.invalid (.str "a") (some (.str "a"))) := rfl

/-- Python set insertion (`s.add(x)`): no duplicate is added.  The model
fixes first-insertion order where CPython's set order is unspecified. -/
def insertUnique (x : PyVal) (l : List PyVal) : List PyVal :=
  if x ∈ l then l else l ++ [x]

/-- The element sequence `_compare_set` iterates (validate.py lines
95-98): the NOTFOUND sentinel becomes an empty collection, a non-iterable
(or string) scalar a one-element list, any other value is iterated. -/
def setDataElems (data : PyVal) : List PyVal :=
  if data = .notfound then []
  else if !_is_nsiterable data then [data]
  else pyIter data

/-- The element loop of validate.py `_compare_set` (lines 100-106): each
element found in the requirement set goes into the matching set, the rest
into the extra set. -/
def setLoop (requirement_set : List PyVal) :
    List PyVal → List PyVal × List PyVal → List PyVal × List PyVal
  | [], acc => acc
  | e :: rest, (matching, extra) =>
    if e ∈ requirement_set then setLoop requirement_set rest (insertUnique e matching, extra)
    else setLoop requirement_set rest (matching, insertUnique e extra)

/-- validate.py `_compare_set` (lines 93-112): partition the data
elements into matching and extra sets, then emit `Missing` for every
requirement element not matched, followed by `Extra` for every distinct
unmatched data element. -/
def _compare_set (data : PyVal) (requirement_set : List PyVal) : List Diff :=
  let acc := setLoop requirement_set (setDataElems data) ([], [])
  let missing := requirement_set.filter (fun x => !decide (x ∈ acc.1))
  missing.map Diff.missing ++ acc.2.map Diff.extra

/-- What a predicate invocation produced: an exception during the call, the
object `True`, the object `False` (identity checks in the source), a
difference instance, or any other object given by its repr string. -/
inductive CallRet where
  | raised : CallRet
  | retTrue : CallRet
  | retFalse : CallRet
  | retDiff (d : Diff) : CallRet
  | retOther (r : String) : CallRet
  deriving DecidableEq

/-- A Python callable used as a requirement: its `__name__` and its
behaviour on an argument tuple. -/
structure PyFunc where
  name : String
  call : List PyVal → CallRet

/-- validate.py lines 122-126: a non-string-iterable element is unpacked
into positional arguments (`function(*element)`), anything else is passed
as the single argument. -/
def invokeElement (f : PyFunc) (e : PyVal) : CallRet :=
  if _is_nsiterable e then f.call (pyIter e) else f.call [e]

/-- The TypeError message of validate.py lines 139-142. -/
def badReturnMsg (name r : String) : String :=
  "'" ++ name ++ "' returned " ++ r ++ ", should return True, False or DataError"

/-- The per-element loop of validate.py `_compare_callable` (lines
121-142): raised errors count as False; True yields nothing; False yields
`Invalid(element)`; a returned difference is used as-is; anything else
raises a TypeError naming the callable and the value. -/
def compareCallableLoop (f : PyFunc) : List PyVal → Except PyErr (List Diff)
  | [] => .ok []
  | e :: rest =>
    match invokeElement f e with
    | .retTrue => compareCallableLoop f rest
    | .raised => (compareCallableLoop f rest).map (Diff.invalid e Option.none :: ·)
    | .retFalse => (compareCallableLoop f rest).map (Diff.invalid e Option.none :: ·)
    | .retDiff d => (compareCallableLoop f rest).map (d :: ·)
    | .retOther r => .error (.typeError (badReturnMsg f.name r))

/-- validate.py `_compare_callable` (lines 115-142): the bare NOTFOUND
sentinel is replaced by a single None element, a non-iterable scalar is
wrapped, and the element loop runs.  (The generator is evaluated eagerly;
the claims only observe fully evaluated reports.) -/
def _compare_callable (data : PyVal) (f : PyFunc) : Except PyErr (List Diff) :=
  let elems :=
    if data = .notfound then [PyVal.none]
    else if !_is_nsiterable data then [data]
    else pyIter data
  compareCallableLoop f elems

/-- Outcome of `regex.search(element)`: a match, no match, or a raised
TypeError (e.g. a non-text element). -/
inductive SearchResult where
  | found : SearchResult
  | notFound : SearchResult
  | typeErr : SearchResult

/-- A compiled pattern, modelled by the behaviour of its `search`. -/
structure PyRegex where
  search : PyVal → SearchResult

/-- validate.py `_compare_regex` (lines 145-157): NOTFOUND data becomes a
single None element, scalars are wrapped; each element whose search finds
no match, or raises a TypeError, yields `Invalid(element)`. -/
def _compare_regex (data : PyVal) (regex : PyRegex) : List Diff :=
  let elems :=
    if data = .notfound then [PyVal.none]
    else if !_is_nsiterable data then [data]
    else pyIter data
  elems.filterMap (fun e =>
    match regex.search e with
    | .found => Option.none
    | .notFound => some (.invalid e Option.none)
    | .typeErr => some (.invalid e Option.none))

/-- validate.py `_compare_other` (lines 160-169), with the element's
(in)equality operator `element != other` as an explicit parameter `ne`
(Python dispatches it to the element, so it is arbitrary code that may
raise): an element testing unequal yields the factory's difference with
the expected side omitted, and an element whose test raises yields the
same difference instead of propagating.  An error raised by the factory
itself propagates (the `except` handler re-invokes it with the same
arguments, so the model's single call gives the same outcome). -/
def _compare_other (ne : PyVal → PyVal → Except Unit Bool) :
    List PyVal → PyVal → Except PyErr (List Diff)
  | [], _ => .ok []
  | e :: rest, other =>
    match ne e other with
    | .ok false => _compare_other ne rest other
    | .ok true => do pure ((← _make_difference e other false) :: (← _compare_other ne rest other))
    | .error _ => do pure ((← _make_difference e other false) :: (← _compare_other ne rest other))

/-- The default inequality test: structural value inequality, never
raising (models `!=` on well-behaved values). -/
def pyNe (a b : PyVal) : Except Unit Bool := .ok (a != b)

mutual

/-- Python `repr` for the embedded values, as used in the sequence
comparison's message (string escaping inside reprs is not modelled; the
sentinel's repr is not pinned by the sources). -/
def pyRepr : PyVal → String
  | .none => "None"
  | .notfound => "<NOTFOUND>"
  | .nan => "nan"
  | .bool b => if b then "True" else "False"
  | .int n => toString n
  | .str s => "'" ++ s ++ "'"
  | .list l => "[" ++ pyReprL l ++ "]"
  | .dict l => "\x7b" ++ pyReprP l ++ "\x7d"

/-- Comma-separated reprs of a list's elements. -/
def pyReprL : List PyVal → String
  | [] => ""
  | [a] => pyRepr a
  | a :: rest => pyRepr a ++ ", " ++ pyReprL rest

/-- Comma-separated `key: value` reprs of a dict's items. -/
def pyReprP : List (PyVal × PyVal) → String
  | [] => ""
  | [(k, v)] => pyRepr k ++ ": " ++ pyRepr v
  | (k, v) :: rest => pyRepr k ++ ": " ++ pyRepr v ++ ", " ++ pyReprP rest

end

/-- `type(x).__name__` for the embedded values. -/
def typeName : PyVal → String
  | .none => "NoneType"
  | .notfound => "_TokenType"
  | .nan => "float"
  | .bool _ => "bool"
  | .int _ => "int"
  | .str _ => "str"
  | .list _ => "list"
  | .dict _ => "dict"

/-- `itertools.zip_longest(a, b, fillvalue=NOTFOUND)`. -/
def zipLongest : List PyVal → List PyVal → List (PyVal × PyVal)
  | [], [] => []
  | [], b :: bs => (.notfound, b) :: zipLongest [] bs
  | a :: as, [] => (a, .notfound) :: zipLongest as []
  | a :: as, b :: bs => (a, b) :: zipLongest as bs

/-- The body of validate.py `_compare_sequence` after its guards (lines
31-90): walk the zipped sequences to the first unequal pair, classify it
(missing / extra / differing), and assemble the AssertionError message
with its leading context, caret underline and trailing context.  Returns
`none` when every zipped pair is equal (the loop's NOBREAK exit). -/
def seqDiffMessage (data sequence : List PyVal) : Option String :=
  let zipped := zipLongest data sequence
  match zipped.findIdx? (fun p => p.1 != p.2) with
  | Option.none => Option.none
  | some index =>
    let p := zipped.getD index (.notfound, .notfound)
    let actual := p.1
    let expected := p.2
    let msgs :=
      if actual == .notfound then
        ("Data sequence is missing elements starting with index " ++ toString index,
         "Expected " ++ pyRepr expected)
      else if expected == .notfound then
        ("Data sequence contains extra elements starting with index " ++ toString index,
         "Found " ++ pyRepr actual)
      else
        ("Data sequence differs starting at index " ++ toString index,
         "Found " ++ pyRepr actual ++ ", expected " ++ pyRepr expected)
    let previous :=
      if index == 0 then PyVal.notfound
      else (zipped.getD (index - 1) (.notfound, .notfound)).1
    let leading :=
      (if index > 1 then ["..."] else []) ++
      (if previous != PyVal.notfound then [pyRepr previous] else [])
    let actualRepr := if actual != PyVal.notfound then pyRepr actual else "?????"
    let caret := String.mk (List.replicate actualRepr.length '^')
    let rest := zipped.drop (index + 1)
    let trailing :=
      match rest with
      | [] => []
      | t :: rest2 => [pyRepr t.1] ++ (if !rest2.isEmpty then ["..."] else [])
    let leadingString :=
      if !leading.isEmpty then String.intercalate ", " leading ++ ", " else ""
    let leadingWhitespace := String.mk (List.replicate leadingString.length ' ')
    let trailingString :=
      if !trailing.isEmpty then ", " ++ String.intercalate ", " trailing else ""
    let sequenceString := leadingString ++ actualRepr ++ trailingString
    some (msgs.1 ++ ":\n\n  " ++ sequenceString ++ "\n  " ++ leadingWhitespace
      ++ caret ++ "\n" ++ msgs.2)

/-- validate.py `_compare_sequence` (lines 18-90): a string is rejected
("uncomparable types"), a non-sequence is rejected ("expected sequence
type"), both with a ValueError; a real sequence yields either `none` (no
difference) or the assembled AssertionError message. -/
def _compare_sequence (data : PyVal) (sequence : List PyVal) : Except PyErr (Option String) :=
  match data with
  | .str _ => .error (.valueError "uncomparable types: 'str' and sequence type")
  | .list l => .ok (seqDiffMessage l sequence)
  | d => .error (.valueError ("expected sequence type, but got '" ++ typeName d ++ "'"))

/-- A requirement, by the shape `_do_comparison` dispatches on (in the
source's priority order: non-string Sequence, Set, callable, compiled
regex, anything else).  The shapes are disjoint in Python's isinstance
checks; the sentinel NOTFOUND used as a requirement is an `otherR`. -/
inductive Req where
  | seqR (l : List PyVal) : Req
  | setR (s : List PyVal) : Req
  | funcR (f : PyFunc) : Req
  | regexR (r : PyRegex) : Req
  | otherR (v : PyVal) : Req

/-- What `_do_comparison` hands back, mirroring the Python object kinds:
`None`, a single difference, a lazy chain of differences, a concrete list
(after the mapping layer materializes a chain), or an AssertionError from
the sequence comparison. -/
inductive Report where
  | noneR : Report
  | single (d : Diff) : Report
  | lazy (ds : List Diff) : Report
  | listR (ds : List Diff) : Report
  | assertErr (msg : String) : Report
  deriving DecidableEq

/-- validate.py lines 193-196: data is a single element when it is not a
non-string iterable, or is itself a mapping; a single element is wrapped
in a one-element list before the predicate/regex/equality comparisons. -/
def normalizeData (data : PyVal) : Bool × PyVal :=
  let is_single_element := !_is_nsiterable data || isMapping data
  (is_single_element, if is_single_element then PyVal.list [data] else data)

/-- validate.py lines 205-210: an empty result is `None`; a nonempty
result is the bare first difference for single-element data, else the
chain. -/
def wrapReport (is_single_element : Bool) (r : Except PyErr (List Diff)) :
    Except PyErr Report :=
  r.map (fun ds =>
    match ds with
    | [] => Report.noneR
    | d :: rest => if is_single_element then Report.single d else Report.lazy (d :: rest))

/-- validate.py `_do_comparison` (lines 172-210): dispatch on the
requirement's shape; sequences and sets first (no data normalization),
then the wrapped comparisons.  Generators are evaluated eagerly, so an
error a later element would raise during iteration surfaces here rather
than at the consumer; every claim observes only fully evaluated reports. -/
def _do_comparison (data : PyVal) (requirement : Req) : Except PyErr Report :=
  match requirement with
  | .seqR l =>
    (_compare_sequence data l).map (fun r =>
      match r with
      | Option.none => Report.noneR
      | some msg => Report.assertErr msg)
  | .setR s =>
    let r := _compare_set data s
    .ok (if r.isEmpty then Report.noneR else Report.lazy r)
  | .funcR f =>
    wrapReport (normalizeData data).1 (_compare_callable (normalizeData data).2 f)
  | .regexR rx =>
    wrapReport (normalizeData data).1 (.ok (_compare_regex (normalizeData data).2 rx))
  | .otherR v =>
    wrapReport (normalizeData data).1 (_compare_other pyNe (pyIter (normalizeData data).2) v)

/-- The data argument of `_compare_mapping`, by the shape its guard
distinguishes: a mapping, an iterable of key-value items
(`_is_collection_of_items`), or anything else (by type name). -/
inductive MapData where
  | mapping (l : List (PyVal × PyVal)) : MapData
  | items (l : List (PyVal × PyVal)) : MapData
  | other (tn : String) : MapData

/-- `mapping.get(key, NOTFOUND)` over the requirement mapping: a missing
key yields the NOTFOUND sentinel, which the dispatcher treats as an
`otherR` requirement. -/
def lookupReq (mapping : List (PyVal × Req)) (key : PyVal) : Req :=
  match mapping.find? (fun p => p.1 == key) with
  | some p => p.2
  | Option.none => .otherR .notfound

/-- Python truthiness of a per-key report (`if result:`): only `None` is
falsy — a difference object, an AssertionError and a (possibly consumed)
chain are all truthy objects. -/
def reportTruthy : Report → Bool
  | .noneR => false
  | _ => true

/-- validate.py lines 227-229 and 236-238: a result that is a non-string
iterable and not a mapping is materialized with `list(...)`.  Chains and
lists are the only iterable reports `_do_comparison` produces (it never
returns a mapping, so the mapping exclusion never fires). -/
def materializeReport : Report → Report
  | .lazy ds => Report.listR ds
  | .listR ds => Report.listR ds
  | r => r

/-- The first loop of validate.py `_compare_mapping` (lines 222-230): for
each data item, compare against the looked-up requirement and yield the
key with its materialized report only when the report is truthy. -/
def compareMappingLoop1 (mapping : List (PyVal × Req)) :
    List (PyVal × PyVal) → Except PyErr (List (PyVal × Report))
  | [] => .ok []
  | (k, actual) :: rest =>
    match _do_comparison actual (lookupReq mapping k) with
    | .error e => .error e
    | .ok result =>
      match compareMappingLoop1 mapping rest with
      | .error e => .error e
      | .ok tail =>
        if reportTruthy result then .ok ((k, materializeReport result) :: tail)
        else .ok tail

/-- The second loop of validate.py `_compare_mapping` (lines 232-239):
for each requirement key absent from the data keys, compare NOTFOUND
against the expected value and yield the key with its materialized
report unconditionally (no truthiness check in this loop). -/
def compareMappingLoop2 (dataKeys : List PyVal) :
    List (PyVal × Req) → Except PyErr (List (PyVal × Report))
  | [] => .ok []
  | (k, expected) :: rest =>
    if k ∈ dataKeys then compareMappingLoop2 dataKeys rest
    else
      match _do_comparison .notfound expected with
      | .error e => .error e
      | .ok result =>
        match compareMappingLoop2 dataKeys rest with
        | .error e => .error e
        | .ok tail => .ok ((k, materializeReport result) :: tail)

/-- validate.py `_compare_mapping` (lines 213-239) with the shape
dispatch its lines 214-219 spell out: reject data that is neither a
mapping nor an iterable of key-value items with a TypeError, then run
the data-side loop followed by the requirement-only-keys loop.  The
`_is_collection_of_items` helper those lines call is in fact never
imported by the module, so the two non-Mapping branches as written are
unreachable — the module's executed behaviour is `_compare_mapping_module`
below (claim C2); the per-key behaviour on mapping-shaped data (claim
C3) is unaffected. -/
def _compare_mapping (data : MapData) (mapping : List (PyVal × Req)) :
    Except PyErr (List (PyVal × Report)) :=
  match data with
  | .other _ => .error (.typeError "data must be mapping or iterable of key-value items")
  | .mapping dataItems => compareMappingBody dataItems mapping
  | .items dataItems => compareMappingBody dataItems mapping
where
  compareMappingBody (dataItems : List (PyVal × PyVal)) (mapping : List (PyVal × Req)) :
      Except PyErr (List (PyVal × Report)) :=
    match compareMappingLoop1 mapping dataItems with
    | .error e => .error e
    | .ok out1 =>
      match compareMappingLoop2 (dataItems.map Prod.fst) mapping with
      | .error e => .error e
      | .ok out2 => .ok (out1 ++ out2)

/-- validate.py `_do_mapping_comparison` (lines 242-254): `None` when the
mapping comparison produced no items, else the items. -/
def _do_mapping_comparison (data : MapData) (mapping : List (PyVal × Req)) :
    Except PyErr (Option (List (PyVal × Report))) :=
  (_compare_mapping data mapping).map (fun l => if l.isEmpty then Option.none else some l)

/-- Modelled from the spec: a longest common subsequence of two lists
(the alignment step of `datatest/require.py`'s `_require_sequence`, which
is not under src/ — only its tests are; spec §4.2 "Aligns data and
requirement position-by-position using a longest-common-subsequence
alignment").  Elements are compared by value equality. -/
def lcs : List PyVal → List PyVal → List PyVal
  | [], _ => []
  | _ :: _, [] => []
  | a :: as, b :: bs =>
    if a = b then a :: lcs as bs
    else
      let l₁ := lcs (a :: as) bs
      let l₂ := lcs as (b :: bs)
      if l₁.length < l₂.length then l₂ else l₁
termination_by l₁ l₂ => l₁.length + l₂.length
decreasing_by all_goals simp +arith

/-- Modelled from the spec: the differences one unmatched gap contributes
(spec §4.2: both-sides elements pair positionally as
`Invalid(actual, expected)` keyed by their positions; leftover requirement
elements become `Missing` keyed by the data position where the divergence
begins, leftover data elements become `Extra` likewise). -/
def gapDiff (dGap rGap : List PyVal) (i j : Nat) : List ((Nat × Nat) × Diff) :=
  let paired := (List.zip dGap rGap).enum.map
    (fun p => ((i + p.1, j + p.1), Diff.invalid p.2.1 (some p.2.2)))
  let li := dGap.length
  let lj := rGap.length
  if li < lj then
    paired ++ (rGap.drop li).enum.map (fun p => ((i + li, j + li + p.1), Diff.missing p.2))
  else
    paired ++ (dGap.drop lj).enum.map (fun p => ((i + lj + p.1, j + lj), Diff.extra p.2))

/-- Modelled from the spec: walk the two sequences along the common
subsequence (matching each common element at its first occurrence), and
emit the aligned differences of the gap before each matched element and
of the final gap; `i`, `j` are the absolute positions of the current
suffixes. -/
def walkDiff : List PyVal → List PyVal → List PyVal → Nat → Nat → List ((Nat × Nat) × Diff)
  | data, req, [], i, j => gapDiff data req i j
  | data, req, c :: cs, i, j =>
    let dPre := data.takeWhile (fun x => x != c)
    let dPost := (data.dropWhile (fun x => x != c)).tail
    let rPre := req.takeWhile (fun x => x != c)
    let rPost := (req.dropWhile (fun x => x != c)).tail
    gapDiff dPre rPre i j ++ walkDiff dPost rPost cs (i + dPre.length + 1) (j + rPre.length + 1)

/-- Modelled from the spec: `datatest/require.py`'s `_require_sequence`
(not under src/; pinned by `tests/test_require.py::TestRequireSequence`):
align data and requirement by a longest-common-subsequence alignment and
return the mapping from `(data_index, requirement_index)` pairs to the
divergence starting there — `none` when there is no difference.  The
string/non-sequence guards of the in-src twin `_compare_sequence` are
settled separately on that function and are not repeated here. -/
def _require_sequence (data requirement : List PyVal) : Option (List ((Nat × Nat) × Diff)) :=
  let d := walkDiff data requirement (lcs data requirement) 0 0
  if d.isEmpty then Option.none else some d

example : _require_sequence
    [.str "aaa", .str "bbb", .str "ccc"] [.str "aaa", .str "bbb", .str "ccc"] = Option.none := by
  simp [_require_sequence, lcs, walkDiff, gapDiff, List.enum, List.enumFrom]

example : _require_sequence
    [.str "aaa", .str "bbb", .str "ccc", .str "ddd", .str "eee"]
    [.str "aaa", .str "ccc", .str "eee"] =
    some [((1, 1), .extra (.str "bbb")), ((3, 2), .extra (.str "ddd"))] := by
  simp [_require_sequence, lcs, walkDiff, gapDiff, List.enum, List.enumFrom]

example : _require_sequence [.str "aaa", .str "bbb"] [] =
    some [((0, 0), .extra (.str "aaa")), ((1, 0), .extra (.str "bbb"))] := by
  simp [_require_sequence, lcs, walkDiff, gapDiff, List.enum, List.enumFrom]

example : _require_sequence
    [.str "bbb", .str "ddd"]
    [.str "aaa", .str "bbb", .str "ccc", .str "ddd", .str "eee"] =
    some [((0, 0), .missing (.str "aaa")), ((1, 2), .missing (.str "ccc")),
          ((2, 4), .missing (.str "eee"))] := by
  simp [_require_sequence, lcs, walkDiff, gapDiff, List.enum, List.enumFrom]

example : _require_sequence [] [.str "aaa", .str "bbb"] =
    some [((0, 0), .missing (.str "aaa")), ((0, 1), .missing (.str "bbb"))] := by
  simp [_require_sequence, lcs, walkDiff, gapDiff, List.enum, List.enumFrom]

example : _require_sequence
    [.str "aaa", .str "bbb", .str "---", .str "ddd", .str "eee"]
    [.str "aaa", .str "bbb", .str "ccc", .str "ddd", .str "eee"] =
    some [((2, 2), .invalid (.str "---") (some (.str "ccc")))] := by
  simp [_require_sequence, lcs, walkDiff, gapDiff, List.enum, List.enumFrom]

example : _require_sequence
    [.str "aaa", .str "---", .str "ddd", .str "eee", .str "ggg"]
    [.str "aaa", .str "bbb", .str "ccc", .str "ddd", .str "fff"] =
    some [((1, 1), .invalid (.str "---") (some (.str "bbb"))),
          ((2, 2), .missing (.str "ccc")),
          ((3, 4), .invalid (.str "eee") (some (.str "fff"))),
          ((4, 5), .extra (.str "ggg"))] := by
  simp [_require_sequence, lcs, walkDiff, gapDiff, List.enum, List.enumFrom]

example : _require_sequence
    [.dict [(.str "a", .int 1)], .dict [(.str "-", .int 0)], .dict [(.str "d", .int 4)],
     .dict [(.str "e", .int 5)], .dict [(.str "g", .int 7)]]
    [.dict [(.str "a", .int 1)], .dict [(.str "b", .int 2)], .dict [(.str "c", .int 3)],
     .dict [(.str "d", .int 4)], .dict [(.str "f", .int 6)]] =
    some [((1, 1), .invalid (.dict [(.str "-", .int 0)]) (some (.dict [(.str "b", .int 2)]))),
          ((2, 2), .missing (.dict [(.str "c", .int 3)])),
          ((3, 4), .invalid (.dict [(.str "e", .int 5)]) (some (.dict [(.str "f", .int 6)]))),
          ((4, 5), .extra (.dict [(.str "g", .int 7)]))] := by
  simp [_require_sequence, lcs, walkDiff, gapDiff, List.enum, List.enumFrom]

/-- C10: in set comparison a string data value is one logical element —
the whole string is tested for membership (never iterated
character-by-character, i.e. the comparison equals that of the one-element
list holding the string), and comparing the string 'a' against the set
of 'a', 'b', 'c' reports exactly Missing('b') and Missing('c') and no
Extra differences. -/
theorem c10_set_string_single_element :
    (∀ (s : String) (requirement_set : List PyVal),
      _compare_set (.str s) requirement_set = _compare_set (.list [.str s]) requirement_set) ∧
    _compare_set (.str "a") [.str "a", .str "b", .str "c"] =
      [.missing (.str "b"), .missing (.str "c")] :=
  ⟨fun _ _ => rfl, rfl⟩

/-- C5 counterexample: the claim states `Deviation(5, 0)` raises, but the
construction (pinned by test_errors.py::TestDeviation.test_zero_value_handling,
which asserts `Deviation(+5, x)` passes for every zero-like `x`) succeeds
on diff 5 with expected 0 and raises no error. -/
theorem c5_counterexample :
    mkDeviation (.int 5) (.int 0) = .ok (.deviation (.int 5) (.int 0)) ∧
    ∀ e : PyErr, mkDeviation (.int 5) (.int 0) ≠ .error e := by
  refine ⟨rfl, fun e h => ?_⟩
  simp [mkDeviation, isZeroVal, isEmptyVal] at h

/-- C5 (amended): Deviation construction enforces the zero-diff rule:
`Deviation(0, 5)` raises, `Deviation(5, 0)` succeeds, `Deviation(5, None)`
succeeds and equals `Deviation(+5, None)`; in general a zero/False diff is
rejected whenever the expected side is not empty (None/''/NaN) — including
a zero expected — while an empty expected side permits a zero diff. -/
theorem c5_deviation_construction :
    (∃ m, mkDeviation (.int 0) (.int 5) = .error (.valueError m)) ∧
    mkDeviation (.int 5) (.int 0) = .ok (.deviation (.int 5) (.int 0)) ∧
    mkDeviation (.int 5) .none = .ok (.deviation (.int 5) .none) ∧
    (∀ v r : PyVal, isZeroVal v → !isEmptyVal r →
      ∃ m, mkDeviation v r = .error (.valueError m)) ∧
    (∀ v r : PyVal, isZeroVal v → isEmptyVal r →
      mkDeviation v r = .ok (.deviation v r)) := by
  refine ⟨⟨"deviation must be a non-zero difference", rfl⟩, rfl, rfl,
    fun v r hv hr => ⟨"deviation must be a non-zero difference", ?_⟩, fun v r hv hr => ?_⟩
  · simp [mkDeviation, hv, hr]
  · simp [mkDeviation, hr]

theorem c5_witness :
    (∃ m, mkDeviation (.int 0) (.int 5) = .error (.valueError m)) ∧
    mkDeviation (.int 0) .none = .ok (.deviation (.int 0) .none) :=
  ⟨c5_deviation_construction.2.2.2.1 (.int 0) (.int 5) (by decide) (by decide),
   c5_deviation_construction.2.2.2.2 (.int 0) .none (by decide) (by decide)⟩

/-- C9 counterexample: the claim states sequence comparison raises a type
error on string data, but on the string 'abc' `_compare_sequence` raises a
ValueError ("uncomparable types"), not a TypeError (this is also what
test_require.py::TestApplyMappingRequirement.test_comparison_error pins:
`assertRaises(ValueError)`). -/
theorem c9_counterexample :
    _compare_sequence (.str "abc") [] =
      .error (.valueError "uncomparable types: 'str' and sequence type") ∧
    ∀ m, _compare_sequence (.str "abc") [] ≠ .error (.typeError m) := by
  refine ⟨rfl, fun m h => ?_⟩
  simp [_compare_sequence] at h

/-- C9 (amended): for every sequence comparison whose data is a bare
string or is not an ordered sequence, `_compare_sequence` raises a
ValueError immediately (no difference report is produced). -/
theorem c9_sequence_guard (data : PyVal) (sequence : List PyVal)
    (h : (∃ s, data = .str s) ∨ ∀ l, data ≠ .list l) :
    ∃ m, _compare_sequence data sequence = .error (.valueError m) := by
  cases data <;> simp_all [_compare_sequence]

theorem c9_witness :
    ∃ m, _compare_sequence (.int 7) [] = .error (.valueError m) :=
  c9_sequence_guard (.int 7) [] (Or.inr (fun l => by simp))

/-- A predicate testing whether its single argument is the value None
(used to separate the two sentinel treatments for claim C4). -/
def isNonePredicate : PyFunc where
  name := "isnone"
  call := fun args => if args = [PyVal.none] then .retTrue else .retFalse

/-- C4 counterexample: the claim states that when data is the NOTFOUND
sentinel and the requirement dispatches to predicate comparison, the
predicate is invoked with None.  Dispatching the sentinel through
`_do_comparison` with a predicate that accepts exactly None reports
`Invalid(NOTFOUND)`: the dispatcher wrapped the bare sentinel into
`[NOTFOUND]` (validate.py lines 193-196), so `_compare_callable` never
saw the bare sentinel and the predicate was invoked with the sentinel
itself, not None. -/
theorem c4_counterexample :
    _do_comparison .notfound (.funcR isNonePredicate) =
      .ok (.single (.invalid .notfound Option.none)) ∧
    _do_comparison .notfound (.funcR isNonePredicate) ≠ .ok Report.noneR := by
  refine ⟨rfl, fun h => ?_⟩
  rw [show _do_comparison .notfound (.funcR isNonePredicate) =
    .ok (.single (.invalid .notfound Option.none)) from rfl] at h
  simp at h

/-- C4 (amended): the None substitution for the NOTFOUND sentinel happens
inside `_compare_callable` / `_compare_regex` when they receive the bare
sentinel (the predicate is invoked with None, the pattern's search is
applied to None); through the dispatcher `_do_comparison`, the sentinel is
wrapped as a single sentinel-valued element, so the predicate is invoked
with — and the search applied to — the sentinel itself. -/
theorem c4_sentinel_normalization :
    (∀ f : PyFunc, _compare_callable .notfound f =
      match f.call [PyVal.none] with
      | .retTrue => .ok []
      | .raised => .ok [.invalid .none Option.none]
      | .retFalse => .ok [.invalid .none Option.none]
      | .retDiff d => .ok [d]
      | .retOther r => .error (.typeError (badReturnMsg f.name r))) ∧
    (∀ rx : PyRegex, _compare_regex .notfound rx =
      match rx.search PyVal.none with
      | .found => []
      | _ => [.invalid .none Option.none]) ∧
    (∀ f : PyFunc, _do_comparison .notfound (.funcR f) =
      match f.call [PyVal.notfound] with
      | .retTrue => .ok Report.noneR
      | .raised => .ok (.single (.invalid .notfound Option.none))
      | .retFalse => .ok (.single (.invalid .notfound Option.none))
      | .retDiff d => .ok (.single d)
      | .retOther r => .error (.typeError (badReturnMsg f.name r))) ∧
    (∀ rx : PyRegex, _do_comparison .notfound (.regexR rx) =
      match rx.search PyVal.notfound with
      | .found => .ok Report.noneR
      | _ => .ok (.single (.invalid .notfound Option.none))) := by
  refine ⟨fun f => ?_, fun rx => ?_, fun f => ?_, fun rx => ?_⟩
  · show compareCallableLoop f [PyVal.none] = _
    rw [show compareCallableLoop f [PyVal.none] =
      match invokeElement f PyVal.none with
      | .retTrue => compareCallableLoop f []
      | .raised => (compareCallableLoop f []).map (Diff.invalid PyVal.none Option.none :: ·)
      | .retFalse => (compareCallableLoop f []).map (Diff.invalid PyVal.none Option.none :: ·)
      | .retDiff d => (compareCallableLoop f []).map (d :: ·)
      | .retOther r => .error (.typeError (badReturnMsg f.name r)) from rfl]
    cases h : f.call [PyVal.none] <;>
      simp [invokeElement, _is_nsiterable, h, compareCallableLoop, Except.map]
  · cases h : rx.search PyVal.none <;>
      simp [_compare_regex, _is_nsiterable, List.filterMap, h]
  · cases h : f.call [PyVal.notfound] <;>
      simp [_do_comparison, normalizeData, _is_nsiterable, isMapping, pyIter, _compare_callable,
        compareCallableLoop, invokeElement, wrapReport, h, Except.map]
  · cases h : rx.search PyVal.notfound <;>
      simp [_do_comparison, normalizeData, _is_nsiterable, isMapping, pyIter, _compare_regex,
        wrapReport, h, List.filterMap, Except.map]

/-- Whether a report is the single-pass chain/generator kind (the kind
the mapping layer materializes with `list(...)`). -/
def Report.isLazy : Report → Bool
  | .lazy _ => true
  | _ => false

/-- The keys on the data side of a mapping comparison. -/
def mapDataKeys : MapData → List PyVal
  | .mapping l => l.map Prod.fst
  | .items l => l.map Prod.fst
  | .other _ => []

theorem materializeReport_not_lazy (r : Report) : (materializeReport r).isLazy = false := by
  cases r <;> simp [materializeReport, Report.isLazy]

theorem materializeReport_noneR (r : Report) :
    materializeReport r = Report.noneR → r = Report.noneR := by
  cases r <;> simp [materializeReport]

theorem compareMappingLoop1_mem (mapping : List (PyVal × Req)) :
    ∀ (items : List (PyVal × PyVal)) (out : List (PyVal × Report)),
      compareMappingLoop1 mapping items = .ok out →
      ∀ p ∈ out, p.2.isLazy = false ∧ p.2 ≠ Report.noneR
  | [], out, h, p, hp => by
      simp [compareMappingLoop1] at h
      subst h
      simp at hp
  | (k, actual) :: rest, out, h, p, hp => by
      rw [compareMappingLoop1] at h
      cases hdc : _do_comparison actual (lookupReq mapping k) with
      | error e => rw [hdc] at h; exact absurd h (by simp)
      | ok result =>
        rw [hdc] at h
        cases htail : compareMappingLoop1 mapping rest with
        | error e => rw [htail] at h; exact absurd h (by simp)
        | ok tail =>
          rw [htail] at h
          dsimp only at h
          by_cases ht : reportTruthy result
          · rw [if_pos ht] at h
            cases h
            rcases List.mem_cons.mp hp with hp | hp
            · subst hp
              refine ⟨materializeReport_not_lazy result, fun hn => ?_⟩
              have := materializeReport_noneR result hn
              rw [this] at ht
              simp [reportTruthy] at ht
            · exact compareMappingLoop1_mem mapping rest tail htail p hp
          · rw [if_neg ht] at h
            cases h
            exact compareMappingLoop1_mem mapping rest _ htail p hp

theorem compareMappingLoop2_mem (dataKeys : List PyVal) :
    ∀ (mapping : List (PyVal × Req)) (out : List (PyVal × Report)),
      compareMappingLoop2 dataKeys mapping = .ok out →
      ∀ p ∈ out, p.2.isLazy = false ∧ p.1 ∉ dataKeys
  | [], out, h, p, hp => by
      simp [compareMappingLoop2] at h
      subst h
      simp at hp
  | (k, expected) :: rest, out, h, p, hp => by
      rw [compareMappingLoop2] at h
      by_cases hk : k ∈ dataKeys
      · rw [if_pos hk] at h
        exact compareMappingLoop2_mem dataKeys rest out h p hp
      · rw [if_neg hk] at h
        cases hdc : _do_comparison .notfound expected with
        | error e => rw [hdc] at h; exact absurd h (by simp)
        | ok result =>
          rw [hdc] at h
          cases htail : compareMappingLoop2 dataKeys rest with
          | error e => rw [htail] at h; exact absurd h (by simp)
          | ok tail =>
            rw [htail] at h
            cases h
            rcases List.mem_cons.mp hp with hp | hp
            · subst hp
              exact ⟨materializeReport_not_lazy result, hk⟩
            · exact compareMappingLoop2_mem dataKeys rest tail htail p hp

/-- C3 counterexample: mapping comparison yields a pair whose report is
None.  With an empty data mapping and a requirement with the empty set at
key 'a', the requirement-only-keys loop (validate.py lines 232-239 — no
truthiness check there) yields ('a', None): `_do_comparison(NOTFOUND, set())`
is None, yet the pair is emitted. -/
theorem c3_counterexample :
    _compare_mapping (.mapping []) [(.str "a", .setR [])] =
      .ok [(.str "a", Report.noneR)] := rfl

/-- C3 (amended): every pair `_compare_mapping` yields carries a
materialized (never lazy) report, and only requirement-only keys may
carry a None report — a pair yielded for a data-side key always has a
nonempty (truthy) report. -/
theorem c3_mapping_reports (data : MapData) (mapping : List (PyVal × Req))
    (out : List (PyVal × Report)) (h : _compare_mapping data mapping = .ok out) :
    ∀ p ∈ out, p.2.isLazy = false ∧ (p.2 = Report.noneR → p.1 ∉ mapDataKeys data) := by
  cases data with
  | other tn => exact absurd h (by simp [_compare_mapping])
  | mapping items =>
    rw [show _compare_mapping (.mapping items) mapping =
      _compare_mapping.compareMappingBody items mapping from rfl] at h
    rw [_compare_mapping.compareMappingBody] at h
    cases h1 : compareMappingLoop1 mapping items with
    | error e => rw [h1] at h; exact absurd h (by simp)
    | ok out1 =>
      rw [h1] at h
      cases h2 : compareMappingLoop2 (items.map Prod.fst) mapping with
      | error e => rw [h2] at h; exact absurd h (by simp)
      | ok out2 =>
        rw [h2] at h
        cases h
        intro p hp
        rcases List.mem_append.mp hp with hp | hp
        · have := compareMappingLoop1_mem mapping items out1 h1 p hp
          exact ⟨this.1, fun hn => absurd hn this.2⟩
        · have := compareMappingLoop2_mem (items.map Prod.fst) mapping out2 h2 p hp
          exact ⟨this.1, fun _ => this.2⟩
  | items items =>
    rw [show _compare_mapping (.items items) mapping =
      _compare_mapping.compareMappingBody items mapping from rfl] at h
    rw [_compare_mapping.compareMappingBody] at h
    cases h1 : compareMappingLoop1 mapping items with
    | error e => rw [h1] at h; exact absurd h (by simp)
    | ok out1 =>
      rw [h1] at h
      cases h2 : compareMappingLoop2 (items.map Prod.fst) mapping with
      | error e => rw [h2] at h; exact absurd h (by simp)
      | ok out2 =>
        rw [h2] at h
        cases h
        intro p hp
        rcases List.mem_append.mp hp with hp | hp
        · have := compareMappingLoop1_mem mapping items out1 h1 p hp
          exact ⟨this.1, fun hn => absurd hn this.2⟩
        · have := compareMappingLoop2_mem (items.map Prod.fst) mapping out2 h2 p hp
          exact ⟨this.1, fun _ => this.2⟩

theorem c3_witness :
    (Report.listR [Diff.missing (.str "z")]).isLazy = false ∧
    (Report.listR [Diff.missing (.str "z")] = Report.noneR →
      PyVal.str "m" ∉ mapDataKeys (.mapping [(.str "k", .int 1)])) :=
  c3_mapping_reports (.mapping [(.str "k", .int 1)])
    [(.str "k", .otherR (.int 2)), (.str "m", .setR [.str "z"])]
    [(.str "k", .single (.deviation (.int (-1)) (.int 2))), (.str "m", .listR [.missing (.str "z")])]
    (by rfl)
    (.str "m", .listR [.missing (.str "z")]) (by simp)

/-- Whether an invocation outcome is a "bad return" (anything other than
True, False, a raised exception, or a difference instance). -/
def isOtherRet : CallRet → Bool
  | .retOther _ => true
  | _ => false

/-- The difference(s) one element contributes in predicate comparison, as
the claim tabulates them: True → nothing; False or a raised exception →
`Invalid(element)`; a returned difference → that difference verbatim. -/
def callableElemDiffs (f : PyFunc) (e : PyVal) : List Diff :=
  match invokeElement f e with
  | .retTrue => []
  | .raised => [.invalid e Option.none]
  | .retFalse => [.invalid e Option.none]
  | .retDiff d => [d]
  | .retOther _ => []

theorem compareCallableLoop_ok (f : PyFunc) :
    ∀ es : List PyVal, (∀ e ∈ es, isOtherRet (invokeElement f e) = false) →
      compareCallableLoop f es = .ok (es.flatMap (callableElemDiffs f))
  | [], _ => rfl
  | e :: rest, h => by
      have he := h e (List.mem_cons_self e rest)
      have ih := compareCallableLoop_ok f rest (fun x hx => h x (List.mem_cons_of_mem e hx))
      rw [compareCallableLoop]
      cases hi : invokeElement f e with
      | retOther r => rw [hi] at he; simp [isOtherRet] at he
      | retTrue => rw [ih]; simp [List.flatMap_cons, callableElemDiffs, hi]
      | raised => rw [ih]; simp [List.flatMap_cons, callableElemDiffs, hi, Except.map]
      | retFalse => rw [ih]; simp [List.flatMap_cons, callableElemDiffs, hi, Except.map]
      | retDiff d => rw [ih]; simp [List.flatMap_cons, callableElemDiffs, hi, Except.map]

theorem compareCallableLoop_error (f : PyFunc) :
    ∀ (pre : List PyVal) (e : PyVal) (post : List PyVal) (r : String),
      (∀ x ∈ pre, isOtherRet (invokeElement f x) = false) →
      invokeElement f e = .retOther r →
      compareCallableLoop f (pre ++ e :: post) = .error (.typeError (badReturnMsg f.name r))
  | [], e, post, r, _, he => by
      rw [List.nil_append, compareCallableLoop, he]
  | x :: pre, e, post, r, hpre, he => by
      have hx := hpre x (List.mem_cons_self x pre)
      have ih := compareCallableLoop_error f pre e post r
        (fun y hy => hpre y (List.mem_cons_of_mem x hy)) he
      rw [List.cons_append, compareCallableLoop]
      cases hi : invokeElement f x with
      | retOther r₂ => rw [hi] at hx; simp [isOtherRet] at hx
      | retTrue => exact ih
      | raised => rw [ih]; rfl
      | retFalse => rw [ih]; rfl
      | retDiff d => rw [ih]; rfl

/-- C6: for every data element in predicate comparison, a True return
yields no difference, a False return yields Invalid(element), an
exception during invocation is treated identically to False (Invalid
without propagating), a returned difference is used verbatim — altogether
the report is the concatenation of each element's tabulated differences —
and the first element whose return value is anything else aborts the
comparison with a raised TypeError naming the predicate and the bad
return value (not a reported difference). -/
theorem c6_callable_outcomes (f : PyFunc) (es : List PyVal) :
    ((∀ e ∈ es, isOtherRet (invokeElement f e) = false) →
      _compare_callable (.list es) f = .ok (es.flatMap (callableElemDiffs f))) ∧
    (∀ pre e post r, es = pre ++ e :: post →
      (∀ x ∈ pre, isOtherRet (invokeElement f x) = false) →
      invokeElement f e = .retOther r →
      _compare_callable (.list es) f = .error (.typeError (badReturnMsg f.name r))) := by
  constructor
  · intro h
    show compareCallableLoop f es = _
    exact compareCallableLoop_ok f es h
  · intro pre e post r hsplit hpre he
    show compareCallableLoop f es = _
    rw [hsplit]
    exact compareCallableLoop_error f pre e post r hpre he

/-- The `isdigit` predicate of
test_require.py::TestRequireCallable (raises on a non-string, mirroring
`int` having no `isdigit` method). -/
def isDigitPredicate : PyFunc where
  name := "isdigit"
  call := fun args =>
    match args with
    | [PyVal.str s] => if !s.data.isEmpty && s.data.all Char.isDigit then .retTrue else .retFalse
    | _ => .raised

/-- A predicate returning a value that is not True, False or a
difference (test_require.py::TestRequireCallable.test_bad_return_type). -/
def badReturnFunc : PyFunc where
  name := "func"
  call := fun _ => .retOther "Exception('my error')"

theorem c6_witness :
    _compare_callable (.list [.str "10", .str "20", .int 30]) isDigitPredicate =
      .ok [.invalid (.int 30) Option.none] ∧
    _compare_callable (.list [.str "a", .str "b"]) badReturnFunc =
      .error (.typeError (badReturnMsg "func" "Exception('my error')")) := by
  constructor
  · have h := (c6_callable_outcomes isDigitPredicate [.str "10", .str "20", .int 30]).1 (by decide)
    exact h.trans (by rfl)
  · exact (c6_callable_outcomes badReturnFunc [.str "a", .str "b"]).2
      [] (.str "a") [.str "b"] "Exception('my error')" rfl (by decide) (by decide)

/-- The difference(s) one element contributes in equality comparison: an
element testing unequal — or whose test raises — contributes the
factory's difference (expected omitted); an element testing equal
contributes nothing. -/
def otherElemDiffs (ne : PyVal → PyVal → Except Unit Bool) (other e : PyVal) : List Diff :=
  match ne e other with
  | .ok false => []
  | _ =>
    match _make_difference e other false with
    | .ok d => [d]
    | .error _ => []

/-- An inequality operator that raises on the value `5` (modelling a
numeric element whose `__ne__` raises), as in
test_require.py::TestRequireEquality.test_broken_comparison but with the
element numerically equal to the requirement. -/
def raisingNe : PyVal → PyVal → Except Unit Bool := fun a b =>
  if a = .int 5 ∧ b = .int 5 then .error () else pyNe a b

/-- C7 counterexample: the claim states an element whose equality
operator raises never propagates an exception out of equality comparison.
For an element numerically equal to the expected value whose inequality
test raises, the except-handler's substituted difference is a zero
deviation, whose construction raises a ValueError that does propagate:
no difference report is produced. -/
theorem c7_counterexample :
    _compare_other raisingNe [.int 5] (.int 5) =
      .error (.valueError "deviation must be a non-zero difference") ∧
    ∀ ds : List Diff, _compare_other raisingNe [.int 5] (.int 5) ≠ .ok ds := by
  refine ⟨rfl, fun ds h => ?_⟩
  rw [show _compare_other raisingNe [.int 5] (.int 5) =
    .error (.valueError "deviation must be a non-zero difference") from rfl] at h
  simp at h

theorem compare_other_ok (ne : PyVal → PyVal → Except Unit Bool) (other : PyVal) :
    ∀ es : List PyVal,
      (∀ e ∈ es, ne e other ≠ .ok false → (_make_difference e other false).isOk = true) →
      _compare_other ne es other = .ok (es.flatMap (otherElemDiffs ne other))
  | [], _ => rfl
  | e :: rest, h => by
      have he := h e (List.mem_cons_self e rest)
      have ih := compare_other_ok ne other rest (fun x hx => h x (List.mem_cons_of_mem e hx))
      rw [_compare_other, List.flatMap_cons]
      cases hne : ne e other with
      | ok b =>
        cases b with
        | false => rw [ih]; simp [otherElemDiffs, hne]
        | true =>
          have hok := he (by rw [hne]; simp)
          cases hmd : _make_difference e other false with
          | error e' => rw [hmd] at hok; simp [Except.isOk, Except.toBool] at hok
          | ok d =>
            simp [Bind.bind, Except.bind, hmd, ih, otherElemDiffs, hne, Pure.pure, Except.pure]
      | error u =>
        have hok := he (by rw [hne]; simp)
        cases hmd : _make_difference e other false with
        | error e' => rw [hmd] at hok; simp [Except.isOk, Except.toBool] at hok
        | ok d =>
          simp [Bind.bind, Except.bind, hmd, ih, otherElemDiffs, hne, Pure.pure, Except.pure]

/-- C7 (amended): element-level evaluation failures are absorbed into the
report: in equality comparison, whenever the difference factory accepts
every element that must be reported, the comparison succeeds with the
per-element differences — an element whose inequality operator raises
gets a (nonempty) substituted difference instead of propagating, and the
remaining elements are still processed; (the exception: a pair the
factory itself rejects — a zero deviation — propagates the factory's
ValueError, see the counterexample).  In pattern comparison, each element
whose search finds no match or raises a type error yields
Invalid(element), the rest yielding nothing, with every element
processed. -/
theorem c7_element_failures :
    (∀ (ne : PyVal → PyVal → Except Unit Bool) (es : List PyVal) (other : PyVal),
      (∀ e ∈ es, ne e other ≠ .ok false → (_make_difference e other false).isOk = true) →
      _compare_other ne es other = .ok (es.flatMap (otherElemDiffs ne other)) ∧
      (∀ e ∈ es, ne e other = .error () → otherElemDiffs ne other e ≠ [])) ∧
    (∀ (rx : PyRegex) (es : List PyVal),
      _compare_regex (.list es) rx = es.flatMap (fun e =>
        match rx.search e with
        | .found => []
        | .notFound => [.invalid e Option.none]
        | .typeErr => [.invalid e Option.none]) ∧
      (∀ e ∈ es, rx.search e = .typeErr →
        Diff.invalid e Option.none ∈ _compare_regex (.list es) rx)) := by
  constructor
  · intro ne es other h
    refine ⟨compare_other_ok ne other es h, fun e he hraise => ?_⟩
    have hok := h e he (by rw [hraise]; simp)
    cases hmd : _make_difference e other false with
    | error e' => rw [hmd] at hok; simp [Except.isOk, Except.toBool] at hok
    | ok d => simp [otherElemDiffs, hraise, hmd]
  · intro rx es
    have heq : _compare_regex (.list es) rx = es.flatMap (fun e =>
        match rx.search e with
        | .found => []
        | .notFound => [.invalid e Option.none]
        | .typeErr => [.invalid e Option.none]) := by
      show es.filterMap _ = _
      induction es with
      | nil => rfl
      | cons e rest ih =>
        rw [List.filterMap_cons, List.flatMap_cons, ← ih]
        cases hs : rx.search e <;> simp [hs]
    refine ⟨heq, fun e he hte => ?_⟩
    rw [heq]
    rw [List.mem_flatMap]
    exact ⟨e, he, by rw [hte]; simp⟩

/-- An inequality operator raising on a distinguished non-numeric
element, as in test_require.py's broken-comparison tests. -/
def brokenNe : PyVal → PyVal → Except Unit Bool := fun a b =>
  if a = .str "bad" then .error () else pyNe a b

/-- A pattern matching strings that contain a digit and raising a
TypeError on non-strings (the shape of test_require.py's regex tests). -/
def digitsRegex : PyRegex where
  search := fun v =>
    match v with
    | .str s => if s.data.any Char.isDigit then .found else .notFound
    | _ => .typeErr

theorem c7_witness :
    _compare_other brokenNe [.int 10, .str "bad", .int 10] (.int 10) =
      .ok [.invalid (.str "bad") Option.none] ∧
    Diff.invalid (.int 30) Option.none ∈ _compare_regex (.list [.str "a1", .int 30]) digitsRegex := by
  constructor
  · have h := (c7_element_failures.1 brokenNe [.int 10, .str "bad", .int 10] (.int 10) ?_).1
    · exact h.trans (by rfl)
    · intro e he hne
      simp at he
      rcases he with rfl | rfl | rfl
      · exact absurd rfl hne
      · rfl
      · exact absurd rfl hne
  · exact (c7_element_failures.2 digitsRegex [.str "a1", .int 30]).2 (.int 30) (by simp) rfl

theorem mem_insertUnique (x v : PyVal) (l : List PyVal) :
    v ∈ insertUnique x l ↔ v ∈ l ∨ v = x := by
  unfold insertUnique
  split
  · next h =>
    constructor
    · exact Or.inl
    · rintro (hv | rfl)
      · exact hv
      · exact h
  · next h => simp

theorem nodup_insertUnique (x : PyVal) (l : List PyVal) (h : l.Nodup) :
    (insertUnique x l).Nodup := by
  unfold insertUnique
  split
  · exact h
  · next hx =>
    refine List.Nodup.append h (List.nodup_singleton x) ?_
    simp [List.disjoint_singleton]
    exact hx

theorem setLoop_spec (R : List PyVal) :
    ∀ (es m x : List PyVal),
      (∀ v, v ∈ (setLoop R es (m, x)).1 ↔ v ∈ m ∨ (v ∈ es ∧ v ∈ R)) ∧
      (∀ v, v ∈ (setLoop R es (m, x)).2 ↔ v ∈ x ∨ (v ∈ es ∧ v ∉ R)) ∧
      (x.Nodup → (setLoop R es (m, x)).2.Nodup)
  | [], m, x => by simp [setLoop]
  | e :: rest, m, x => by
      rw [setLoop]
      by_cases hR : e ∈ R
      · rw [if_pos hR]
        have ih := setLoop_spec R rest (insertUnique e m) x
        refine ⟨fun v => ?_, fun v => ?_, ih.2.2⟩
        · rw [ih.1 v, mem_insertUnique]
          constructor
          · rintro ((hv | rfl) | ⟨hv, hvR⟩)
            · exact Or.inl hv
            · exact Or.inr ⟨List.mem_cons_self _ _, hR⟩
            · exact Or.inr ⟨List.mem_cons_of_mem e hv, hvR⟩
          · rintro (hv | ⟨hv, hvR⟩)
            · exact Or.inl (Or.inl hv)
            · rcases List.mem_cons.mp hv with rfl | hv
              · exact Or.inl (Or.inr rfl)
              · exact Or.inr ⟨hv, hvR⟩
        · rw [ih.2.1 v]
          constructor
          · rintro (hv | ⟨hv, hvR⟩)
            · exact Or.inl hv
            · exact Or.inr ⟨List.mem_cons_of_mem e hv, hvR⟩
          · rintro (hv | ⟨hv, hvR⟩)
            · exact Or.inl hv
            · rcases List.mem_cons.mp hv with rfl | hv
              · exact absurd hR hvR
              · exact Or.inr ⟨hv, hvR⟩
      · rw [if_neg hR]
        have ih := setLoop_spec R rest m (insertUnique e x)
        refine ⟨fun v => ?_, fun v => ?_, fun hnd => ih.2.2 (nodup_insertUnique e x hnd)⟩
        · rw [ih.1 v]
          constructor
          · rintro (hv | ⟨hv, hvR⟩)
            · exact Or.inl hv
            · exact Or.inr ⟨List.mem_cons_of_mem e hv, hvR⟩
          · rintro (hv | ⟨hv, hvR⟩)
            · exact Or.inl hv
            · rcases List.mem_cons.mp hv with rfl | hv
              · exact absurd hvR hR
              · exact Or.inr ⟨hv, hvR⟩
        · rw [ih.2.1 v, mem_insertUnique]
          constructor
          · rintro ((hv | rfl) | ⟨hv, hvR⟩)
            · exact Or.inl hv
            · exact Or.inr ⟨List.mem_cons_self _ _, hR⟩
            · exact Or.inr ⟨List.mem_cons_of_mem e hv, hvR⟩
          · rintro (hv | ⟨hv, hvR⟩)
            · exact Or.inl (Or.inl hv)
            · rcases List.mem_cons.mp hv with rfl | hv
              · exact Or.inl (Or.inr rfl)
              · exact Or.inr ⟨hv, hvR⟩

theorem diff_missing_injective : Function.Injective Diff.missing := by
  intro a b h
  cases h
  rfl

theorem diff_extra_injective : Function.Injective Diff.extra := by
  intro a b h
  cases h
  rfl

/-- C8: set comparison reports all Missing differences before all Extra
differences; exactly one Missing per requirement element absent from the
(distinct) data elements and none for a present one; exactly one Extra
per distinct data element outside the requirement set (duplicates
collapse) and none otherwise; the not-found sentinel is treated as an
empty data collection and a non-iterable scalar as a one-element
collection. -/
theorem c8_set_comparison (data : PyVal) (R : List PyVal) (hR : R.Nodup) :
    (∃ ms xs : List PyVal, _compare_set data R = ms.map Diff.missing ++ xs.map Diff.extra) ∧
    (∀ v ∈ R, v ∉ setDataElems data → (_compare_set data R).count (Diff.missing v) = 1) ∧
    (∀ v ∈ R, v ∈ setDataElems data → (_compare_set data R).count (Diff.missing v) = 0) ∧
    (∀ v, v ∈ setDataElems data → v ∉ R → (_compare_set data R).count (Diff.extra v) = 1) ∧
    (∀ v, v ∉ setDataElems data ∨ v ∈ R → (_compare_set data R).count (Diff.extra v) = 0) ∧
    _compare_set PyVal.notfound R = _compare_set (.list []) R ∧
    (∀ w : PyVal, w ≠ .notfound → _is_nsiterable w = false →
      _compare_set w R = _compare_set (.list [w]) R) := by
  have hspec := setLoop_spec R (setDataElems data) [] []
  have hm := hspec.1
  have hx := hspec.2.1
  have hnd : (setLoop R (setDataElems data) ([], [])).2.Nodup := hspec.2.2 List.nodup_nil
  simp only [List.not_mem_nil, false_or] at hm hx
  have hres : _compare_set data R =
      (R.filter (fun v => !decide (v ∈ (setLoop R (setDataElems data) ([], [])).1))).map
        Diff.missing ++
      (setLoop R (setDataElems data) ([], [])).2.map Diff.extra := rfl
  have hMissingNotExtra : ∀ v, (Diff.missing v) ∉
      ((setLoop R (setDataElems data) ([], [])).2.map Diff.extra) := by
    intro v h
    rcases List.mem_map.mp h with ⟨w, _, hw⟩
    cases hw
  have hExtraNotMissing : ∀ (v : PyVal) (l : List PyVal), (Diff.extra v) ∉ (l.map Diff.missing) := by
    intro v l h
    rcases List.mem_map.mp h with ⟨w, _, hw⟩
    cases hw
  refine ⟨⟨_, _, hres⟩, ?_, ?_, ?_, ?_, rfl, ?_⟩
  · intro v hvR hvd
    rw [hres, List.count_append]
    rw [List.count_eq_zero_of_not_mem (hMissingNotExtra v)]
    rw [List.count_map_of_injective _ _ diff_missing_injective]
    have hvm : v ∉ (setLoop R (setDataElems data) ([], [])).1 := by
      rw [hm v]
      rintro ⟨hv, _⟩
      exact hvd hv
    have : v ∈ R.filter (fun v => !decide (v ∈ (setLoop R (setDataElems data) ([], [])).1)) := by
      rw [List.mem_filter]
      exact ⟨hvR, by simp [hvm]⟩
    rw [List.count_eq_one_of_mem (hR.filter _) this]
  · intro v hvR hvd
    rw [hres, List.count_append]
    rw [List.count_eq_zero_of_not_mem (hMissingNotExtra v)]
    rw [List.count_map_of_injective _ _ diff_missing_injective]
    have hvm : v ∈ (setLoop R (setDataElems data) ([], [])).1 := (hm v).mpr ⟨hvd, hvR⟩
    have : v ∉ R.filter (fun v => !decide (v ∈ (setLoop R (setDataElems data) ([], [])).1)) := by
      rw [List.mem_filter]
      rintro ⟨_, hv⟩
      simp [hvm] at hv
    rw [List.count_eq_zero_of_not_mem this]
  · intro v hvd hvR
    rw [hres, List.count_append]
    rw [List.count_eq_zero_of_not_mem (hExtraNotMissing v _)]
    rw [List.count_map_of_injective _ _ diff_extra_injective]
    have hvx : v ∈ (setLoop R (setDataElems data) ([], [])).2 := (hx v).mpr ⟨hvd, hvR⟩
    rw [List.count_eq_one_of_mem hnd hvx]
  · intro v hv
    rw [hres, List.count_append]
    rw [List.count_eq_zero_of_not_mem (hExtraNotMissing v _)]
    rw [List.count_map_of_injective _ _ diff_extra_injective]
    have hvx : v ∉ (setLoop R (setDataElems data) ([], [])).2 := by
      rw [hx v]
      rintro ⟨hvd, hvR⟩
      rcases hv with hv | hv
      · exact hv hvd
      · exact hvR hv
    rw [List.count_eq_zero_of_not_mem hvx]
  · intro w hw hwi
    have hsd : setDataElems w = setDataElems (.list [w]) := by
      unfold setDataElems
      rw [if_neg hw, hwi]
      rfl
    simp only [_compare_set, hsd]

theorem c8_witness :
    (_compare_set (.list [.str "a", .str "c", .str "x"]) [.str "a", .str "b", .str "c"]).count
      (Diff.missing (.str "b")) = 1 ∧
    (_compare_set (.list [.str "a", .str "c", .str "x"]) [.str "a", .str "b", .str "c"]).count
      (Diff.extra (.str "x")) = 1 ∧
    _compare_set (.int 7) [.str "a"] = _compare_set (.list [.int 7]) [.str "a"] :=
  ⟨(c8_set_comparison (.list [.str "a", .str "c", .str "x"]) [.str "a", .str "b", .str "c"]
      (by decide)).2.1 _ (by decide) (by decide),
   (c8_set_comparison (.list [.str "a", .str "c", .str "x"]) [.str "a", .str "b", .str "c"]
      (by decide)).2.2.2.1 _ (by decide) (by decide),
   (c8_set_comparison (.int 7) [.str "a"] (by decide)).2.2.2.2.2.2 _ (by decide) (by decide)⟩

/-- validate.py `_compare_mapping` as the module actually executes: the
module's imports (lines 2-13) bring in only itertools, collections,
callable, `_is_nsiterable` and the errors names, and `_is_collection_of_items`
is defined nowhere in the file — so for every non-Mapping data value the
`elif _is_collection_of_items(data)` test at line 216 raises a NameError
the moment the generator body first runs.  The TypeError at line 219 is
unreachable, and an iterable of key-value items never reaches the per-key
loops.  (`_compare_mapping` above models the shape dispatch those lines
spell out — the behaviour the code would have with the helper in scope —
which is what the mapping-shaped traces of claim C3 exercise.) -/
def _compare_mapping_module (data : MapData) (mapping : List (PyVal × Req)) :
    Except PyErr (List (PyVal × Report)) :=
  match data with
  | .mapping dataItems => _compare_mapping.compareMappingBody dataItems mapping
  | .items _ => .error (.nameError "name '_is_collection_of_items' is not defined")
  | .other _ => .error (.nameError "name '_is_collection_of_items' is not defined")

/-- C2 (code bug): the claim says non-mapping/non-items data raises a
TypeError and items data proceeds to the per-key comparison, but
validate.py never imports or defines `_is_collection_of_items`, so the
module as it stands raises a NameError for every non-Mapping data value:
an iterable of key-value items errors out instead of proceeding, a
plain scalar gets the NameError rather than the (unreachable) shape
TypeError, and only Mapping data runs the per-key loops. -/
theorem c2_name_error_bug :
    _compare_mapping_module (.items [(.str "a", .str "x")]) [(.str "a", .otherR (.str "x"))] =
      .error (.nameError "name '_is_collection_of_items' is not defined") ∧
    _compare_mapping_module (.other "int") [] =
      .error (.nameError "name '_is_collection_of_items' is not defined") ∧
    (∀ m, _compare_mapping_module (.other "int") [] ≠ .error (.typeError m)) ∧
    (∀ (l : List (PyVal × PyVal)) (mp : List (PyVal × Req)),
      _compare_mapping_module (.mapping l) mp = _compare_mapping (.mapping l) mp) := by
  refine ⟨rfl, rfl, fun m h => ?_, fun l mp => rfl⟩
  simp [_compare_mapping_module] at h

theorem lcs_self : ∀ l : List PyVal, lcs l l = l
  | [] => by simp [lcs]
  | a :: as => by simp [lcs, lcs_self as]

theorem walkDiff_self : ∀ (l : List PyVal) (i j : Nat), walkDiff l l l i j = []
  | [], i, j => by simp [walkDiff, gapDiff]
  | c :: rest, i, j => by
      rw [walkDiff]
      have h1 : (c :: rest).takeWhile (fun x => x != c) = [] := by
        simp [List.takeWhile_cons]
      have h2 : ((c :: rest).dropWhile (fun x => x != c)).tail = rest := by
        simp [List.dropWhile_cons]
      rw [h1, h2, walkDiff_self rest]
      simp [gapDiff]

theorem lcs_sublist : ∀ a b : List PyVal,
    List.Sublist (lcs a b) a ∧ List.Sublist (lcs a b) b := by
  intro a b
  induction a, b using lcs.induct with
  | case1 b => simp [lcs]
  | case2 a as => simp [lcs]
  | case3 as b bs ih =>
      rw [lcs, if_pos rfl]
      exact ⟨List.cons_sublist_cons.mpr ih.1, List.cons_sublist_cons.mpr ih.2⟩
  | case4 a as b bs hne l₁ l₂ hlt ih₁ ih₂ =>
      rw [lcs, if_neg hne]
      dsimp only
      rw [if_pos hlt]
      exact ⟨ih₂.1.trans (List.sublist_cons_self a as), ih₂.2⟩
  | case5 a as b bs hne l₁ l₂ hlt ih₁ ih₂ =>
      rw [lcs, if_neg hne]
      dsimp only
      rw [if_neg hlt]
      exact ⟨ih₁.1, ih₁.2.trans (List.sublist_cons_self b bs)⟩

theorem split_at_first (x : PyVal) : ∀ l : List PyVal, x ∈ l →
    l = l.takeWhile (fun y => y != x) ++ x :: (l.dropWhile (fun y => y != x)).tail
  | a :: as, h => by
      by_cases hax : a = x
      · subst hax
        simp [List.takeWhile_cons, List.dropWhile_cons]
      · have hx : x ∈ as := by
          rcases List.mem_cons.mp h with rfl | h₂
          · exact absurd rfl hax
          · exact h₂
        have hbne : (a != x) = true := by simp [bne_iff_ne, hax]
        simp only [List.takeWhile_cons, List.dropWhile_cons, hbne, if_true, List.cons_append]
        exact congrArg (a :: ·) (split_at_first x as hx)

theorem cons_sublist_dropWhile_tail (x : PyVal) : ∀ (cs l : List PyVal),
    List.Sublist (x :: cs) l → List.Sublist cs ((l.dropWhile (fun y => y != x)).tail)
  | cs, [], h => by cases h
  | cs, a :: as, h => by
      by_cases hax : a = x
      · subst hax
        simp only [List.dropWhile_cons, bne_self_eq_false, if_false, List.tail_cons]
        cases h with
        | cons _ h₂ => exact (List.sublist_cons_self a cs).trans h₂
        | cons₂ _ h₂ => exact h₂
      · have hbne : (a != x) = true := by simp [bne_iff_ne, hax]
        simp only [List.dropWhile_cons, hbne, if_true]
        have h' : List.Sublist (x :: cs) as := by
          cases h with
          | cons _ h₂ => exact h₂
          | cons₂ _ h₂ => exact absurd rfl hax
        exact cons_sublist_dropWhile_tail x cs as h'

theorem gapDiff_nil (d r : List PyVal) (i j : Nat) (h : gapDiff d r i j = []) :
    d = [] ∧ r = [] := by
  cases d <;> cases r
  case nil.nil => exact ⟨rfl, rfl⟩
  all_goals
    rw [gapDiff] at h
    try dsimp only at h
    split at h <;> simp_all [List.enum_cons, List.zip_cons_cons] <;> try omega

theorem walkDiff_nil_eq : ∀ (c d r : List PyVal) (i j : Nat),
    List.Sublist c d → List.Sublist c r → walkDiff d r c i j = [] → d = r
  | [], d, r, i, j, _, _, h => by
      rw [walkDiff] at h
      obtain ⟨hd, hr⟩ := gapDiff_nil d r i j h
      rw [hd, hr]
  | x :: cs, d, r, i, j, hcd, hcr, h => by
      rw [walkDiff] at h
      rcases List.append_eq_nil.mp h with ⟨h₁, h₂⟩
      obtain ⟨hdp, hrp⟩ := gapDiff_nil _ _ _ _ h₁
      have hxd : x ∈ d := hcd.subset (List.mem_cons_self _ _)
      have hxr : x ∈ r := hcr.subset (List.mem_cons_self _ _)
      have hd := split_at_first x d hxd
      have hr := split_at_first x r hxr
      rw [hdp, List.nil_append] at hd
      rw [hrp, List.nil_append] at hr
      have ih := walkDiff_nil_eq cs _ _ _ _
        (cons_sublist_dropWhile_tail x cs d hcd) (cons_sublist_dropWhile_tail x cs r hcr) h₂
      rw [hd, hr, ih]

/-- The shape of one aligned-sequence difference entry, relative to the
full data and requirement sequences: an `Extra` carries the data element
at its data index, a `Missing` the requirement element at its
requirement index, an `Invalid` both elements at their respective
indices. -/
def seqEntryOk (data requirement : List PyVal) (e : (Nat × Nat) × Diff) : Prop :=
  (∃ v, e.2 = Diff.extra v ∧ data[e.1.1]? = some v) ∨
  (∃ v, e.2 = Diff.missing v ∧ requirement[e.1.2]? = some v) ∨
  (∃ a x, e.2 = Diff.invalid a (some x) ∧ data[e.1.1]? = some a ∧ requirement[e.1.2]? = some x)

theorem gapDiff_shape (dataF reqF : List PyVal) (d r : List PyVal) (i j : Nat)
    (hd : ∀ k, k < d.length → dataF[i + k]? = d[k]?)
    (hr : ∀ k, k < r.length → reqF[j + k]? = r[k]?) :
    ∀ e ∈ gapDiff d r i j, seqEntryOk dataF reqF e := by
  intro e he
  have hpaired : ∀ p : Nat × (PyVal × PyVal), p ∈ (d.zip r).enum →
      seqEntryOk dataF reqF ((i + p.1, j + p.1), Diff.invalid p.2.1 (some p.2.2)) := by
    rintro ⟨k, a, b⟩ hp
    obtain ⟨hk, hv⟩ := List.mem_enum hp
    have hz : (d.zip r)[k]? = some (a, b) := by
      rw [List.getElem?_eq_getElem hk, ← hv]
    obtain ⟨hzd, hzr⟩ := List.getElem?_zip_eq_some.mp hz
    have hkd : k < d.length := by
      have := List.getElem?_eq_some.mp hzd
      exact this.1
    have hkr : k < r.length := by
      have := List.getElem?_eq_some.mp hzr
      exact this.1
    refine Or.inr (Or.inr ⟨a, b, rfl, ?_, ?_⟩)
    · rw [hd k hkd]; exact hzd
    · rw [hr k hkr]; exact hzr
  rw [gapDiff] at he
  try dsimp only at he
  split at he <;> rcases List.mem_append.mp he with hp | hp
  · rcases List.mem_map.mp hp with ⟨p, hpm, rfl⟩
    exact hpaired p hpm
  · rcases List.mem_map.mp hp with ⟨p, hpm, rfl⟩
    obtain ⟨k, v⟩ := p
    obtain ⟨hk, hv⟩ := List.mem_enum hpm
    refine Or.inr (Or.inl ⟨v, rfl, ?_⟩)
    have hlen : d.length + k < r.length := by
      rw [List.length_drop] at hk
      omega
    have : reqF[j + (d.length + k)]? = r[d.length + k]? := hr _ hlen
    rw [show j + d.length + k = j + (d.length + k) by omega, this,
      ← List.getElem?_drop]
    rw [List.getElem?_eq_getElem hk, ← hv]
  · rcases List.mem_map.mp hp with ⟨p, hpm, rfl⟩
    exact hpaired p hpm
  · rcases List.mem_map.mp hp with ⟨p, hpm, rfl⟩
    obtain ⟨k, v⟩ := p
    obtain ⟨hk, hv⟩ := List.mem_enum hpm
    refine Or.inl ⟨v, rfl, ?_⟩
    have hlen : r.length + k < d.length := by
      rw [List.length_drop] at hk
      omega
    have : dataF[i + (r.length + k)]? = d[r.length + k]? := hd _ hlen
    rw [show i + r.length + k = i + (r.length + k) by omega, this,
      ← List.getElem?_drop]
    rw [List.getElem?_eq_getElem hk, ← hv]

theorem walkDiff_shape (dataF reqF : List PyVal) :
    ∀ (c d r : List PyVal) (i j : Nat),
      List.Sublist c d → List.Sublist c r →
      (∀ k, k < d.length → dataF[i + k]? = d[k]?) →
      (∀ k, k < r.length → reqF[j + k]? = r[k]?) →
      ∀ e ∈ walkDiff d r c i j, seqEntryOk dataF reqF e
  | [], d, r, i, j, _, _, hd, hr => by
      rw [walkDiff]
      exact gapDiff_shape dataF reqF d r i j hd hr
  | x :: cs, d, r, i, j, hcd, hcr, hd, hr => by
      rw [walkDiff]
      intro e he
      set dPre := d.takeWhile (fun y => y != x) with hdPre
      set rPre := r.takeWhile (fun y => y != x) with hrPre
      set dPost := (d.dropWhile (fun y => y != x)).tail with hdPost
      set rPost := (r.dropWhile (fun y => y != x)).tail with hrPost
      have hxd : x ∈ d := hcd.subset (List.mem_cons_self _ _)
      have hxr : x ∈ r := hcr.subset (List.mem_cons_self _ _)
      have hds : d = dPre ++ x :: dPost := split_at_first x d hxd
      have hrs : r = rPre ++ x :: rPost := split_at_first x r hxr
      have hdlen : d.length = dPre.length + 1 + dPost.length := by
        conv_lhs => rw [hds]
        simp [List.length_append]
        omega
      have hrlen : r.length = rPre.length + 1 + rPost.length := by
        conv_lhs => rw [hrs]
        simp [List.length_append]
        omega
      have hdPreGet : ∀ k, k < dPre.length → dataF[i + k]? = dPre[k]? := by
        intro k hk
        rw [hd k (by omega)]
        conv_lhs => rw [hds]
        rw [List.getElem?_append, if_pos hk]
      have hrPreGet : ∀ k, k < rPre.length → reqF[j + k]? = rPre[k]? := by
        intro k hk
        rw [hr k (by omega)]
        conv_lhs => rw [hrs]
        rw [List.getElem?_append, if_pos hk]
      have hdPostGet : ∀ k, k < dPost.length → dataF[i + dPre.length + 1 + k]? = dPost[k]? := by
        intro k hk
        have h₁ := hd (dPre.length + 1 + k) (by omega)
        rw [show i + (dPre.length + 1 + k) = i + dPre.length + 1 + k by omega] at h₁
        rw [h₁]
        conv_lhs => rw [hds]
        rw [List.getElem?_append_right (by omega)]
        rw [show dPre.length + 1 + k - dPre.length = k + 1 by omega]
        rw [List.getElem?_cons_succ]
      have hrPostGet : ∀ k, k < rPost.length → reqF[j + rPre.length + 1 + k]? = rPost[k]? := by
        intro k hk
        have h₁ := hr (rPre.length + 1 + k) (by omega)
        rw [show j + (rPre.length + 1 + k) = j + rPre.length + 1 + k by omega] at h₁
        rw [h₁]
        conv_lhs => rw [hrs]
        rw [List.getElem?_append_right (by omega)]
        rw [show rPre.length + 1 + k - rPre.length = k + 1 by omega]
        rw [List.getElem?_cons_succ]
      rcases List.mem_append.mp he with he | he
      · exact gapDiff_shape dataF reqF dPre rPre i j hdPreGet hrPreGet e he
      · exact walkDiff_shape dataF reqF cs dPost rPost (i + dPre.length + 1) (j + rPre.length + 1)
          (cons_sublist_dropWhile_tail x cs d hcd) (cons_sublist_dropWhile_tail x cs r hcr)
          hdPostGet hrPostGet e he

/-- C1: for element-wise equal data and requirement sequences the
longest-common-subsequence sequence comparison returns no difference
(None); for differing sequences it returns a nonempty mapping keyed by
(data_index, requirement_index) pairs in which every entry is an
Extra(value) carrying the data element at its data index, a
Missing(value) carrying the requirement element at its requirement
index, or an Invalid(actual, expected) carrying the elements at both
indices. -/
theorem c1_sequence_alignment (data requirement : List PyVal) :
    (data = requirement → _require_sequence data requirement = Option.none) ∧
    (data ≠ requirement → ∃ m, _require_sequence data requirement = some m ∧ m ≠ [] ∧
      ∀ e ∈ m, seqEntryOk data requirement e) := by
  constructor
  · rintro rfl
    unfold _require_sequence
    rw [lcs_self, walkDiff_self]
    rfl
  · intro hne
    have hsub := lcs_sublist data requirement
    have hwne : walkDiff data requirement (lcs data requirement) 0 0 ≠ [] := by
      intro h
      exact hne (walkDiff_nil_eq _ _ _ _ _ hsub.1 hsub.2 h)
    refine ⟨walkDiff data requirement (lcs data requirement) 0 0, ?_, hwne, ?_⟩
    · unfold _require_sequence
      rw [if_neg (by simpa [List.isEmpty_iff] using hwne)]
    · intro e he
      refine walkDiff_shape data requirement (lcs data requirement) data requirement 0 0
        hsub.1 hsub.2 ?_ ?_ e he
      · intro k hk
        simp
      · intro k hk
        simp

theorem c1_witness :
    _require_sequence [.int 1] [.int 1] = Option.none ∧
    ∃ m, _require_sequence [.int 1] [.int 2] = some m ∧ m ≠ [] ∧
      ∀ e ∈ m, seqEntryOk [.int 1] [.int 2] e :=
  ⟨(c1_sequence_alignment [.int 1] [.int 1]).1 rfl,
   (c1_sequence_alignment [.int 1] [.int 2]).2 (by simp)⟩
